import Mathlib

/-!
Verification development for the fullprop property-management server.

The definitions below are a shallow embedding of the server-side invoice
engine: `server/invoiceService.ts`, the storage layer, the notification
service, the PDF service's amount section, and the HTTP routes that drive
them.  JavaScript numbers that can be NaN are modelled as `Option ℚ`
(`none` = NaN; nonfinite division results are also collapsed to `none`),
machine time is an `Int` count of milliseconds, and calendar dates are a
`JsDate` record mirroring the (year, month, day) fields the code reads via
`getFullYear`/`getMonth`.  Database tables are Lean lists inside an
explicit `AppState`.
-/

/-- Model of the JavaScript `a || b` idiom on a nullable string: `null`,
`undefined` and the empty string are falsy and select the default. -/
def jsOr (a : Option String) (b : String) : String :=
  match a with
  | some s => if s = "" then b else s
  | none => b

/-- Model of JavaScript `String.prototype.padStart(len, c)`: pad on the left
with `c` up to length `len`; a longer string is returned unchanged. -/
def padStart (s : String) (len : Nat) (c : Char) : String :=
  String.mk (List.replicate (len - s.length) c) ++ s

/-- Model of `Date.now().toString().slice(-4)`: the last four decimal digits
of the millisecond timestamp (the whole string when it is shorter). -/
def jsSliceLast4 (n : Nat) : String :=
  let s := toString n
  s.drop (s.length - 4)

/-- Model of JavaScript `String.prototype.trim()`: strip whitespace from
both ends. -/
def jsTrim (s : String) : String :=
  String.mk (((s.toList.dropWhile Char.isWhitespace).reverse.dropWhile
    Char.isWhitespace).reverse)

/-- Numeric value of a block of decimal digit characters. -/
def digitsVal (cs : List Char) : Nat :=
  cs.foldl (fun acc c => acc * 10 + (c.toNat - '0'.toNat)) 0

/-- Rational value of a parsed decimal: sign, integer digits, fraction
digits and fraction length. -/
def ratOfParts (neg : Bool) (intVal fracVal fracLen : Nat) : ℚ :=
  let mag : ℚ := (intVal : ℚ) + (fracVal : ℚ) / ((10 : ℚ) ^ fracLen)
  if neg then -mag else mag

/-- Model of JavaScript `parseFloat` restricted to the shapes occurring in
this repository: an optional sign, decimal digits, and an optional fraction
after one dot, reading the longest valid numeric prefix.  `none` models NaN
(no digit could be consumed).  Whitespace skipping, exponents and the
literal `Infinity` never occur in this codebase's inputs and are not
modelled. -/
def parseFloat (s : String) : Option ℚ :=
  let cs := s.toList
  let signed : Bool × List Char :=
    match cs with
    | '-' :: t => (true, t)
    | '+' :: t => (false, t)
    | _ => (false, cs)
  let intPart := signed.2.takeWhile Char.isDigit
  let rest := signed.2.dropWhile Char.isDigit
  let fracPart :=
    match rest with
    | '.' :: t => t.takeWhile Char.isDigit
    | _ => []
  if intPart = [] ∧ fracPart = [] then none
  else some (ratOfParts signed.1 (digitsVal intPart) (digitsVal fracPart) fracPart.length)

/-- NaN-propagating addition on JavaScript numbers. -/
def jsAdd (a b : Option ℚ) : Option ℚ :=
  match a, b with
  | some x, some y => some (x + y)
  | _, _ => none

/-- NaN-propagating subtraction on JavaScript numbers. -/
def jsSub (a b : Option ℚ) : Option ℚ :=
  match a, b with
  | some x, some y => some (x - y)
  | _, _ => none

/-- NaN-propagating division on JavaScript numbers.  Division by zero yields
±Infinity in JavaScript; nonfinite values are collapsed to `none` here. -/
def jsDiv (a b : Option ℚ) : Option ℚ :=
  match a, b with
  | some x, some y => if y = 0 then none else some (x / y)
  | _, _ => none

/-- Model of `Math.ceil(diffMs / 86400000)` on an integral millisecond
difference: the ceiling of the exact rational quotient. -/
def jsCeilDays (diffMs : Int) : Int :=
  -((-diffMs).fdiv 86400000)

/-- Calendar date as read back from a JavaScript `Date` via `getFullYear`,
`getMonth` (0-based) and `getDate`. -/
structure JsDate where
  year : Nat
  month0 : Nat
  day : Nat
deriving DecidableEq

/-- Gregorian leap-year rule (as implemented by JavaScript dates). -/
def isLeapYear (y : Nat) : Bool :=
  (y % 4 == 0 && y % 100 != 0) || y % 400 == 0

/-- Number of days of 0-based month `m0` of year `y`. -/
def daysInMonth (y : Nat) (m0 : Nat) : Nat :=
  match m0 with
  | 0 => 31
  | 1 => if isLeapYear y then 29 else 28
  | 2 => 31
  | 3 => 30
  | 4 => 31
  | 5 => 30
  | 6 => 31
  | 7 => 31
  | 8 => 30
  | 9 => 31
  | 10 => 30
  | _ => 31

/-- Model of the JavaScript constructor `new Date(y, m, d)` for the argument
shapes the server uses (`d ∈ {0, 1, 7}`, `m ≤ 12`): month overflow rolls
into the year, and day `0` denotes the last day of the previous month. -/
def mkJsDate (y : Nat) (m : Nat) (d : Nat) : JsDate :=
  let y1 := y + m / 12
  let m1 := m % 12
  if d = 0 then
    if m1 = 0 then ⟨y1 - 1, 11, daysInMonth (y1 - 1) 11⟩
    else ⟨y1, m1 - 1, daysInMonth y1 (m1 - 1)⟩
  else ⟨y1, m1, d⟩

/-- English long month name, as produced by
`toLocaleDateString('en-ZA', { month: 'long' })`. -/
def monthLongName (m0 : Nat) : String :=
  match m0 with
  | 0 => "January"
  | 1 => "February"
  | 2 => "March"
  | 3 => "April"
  | 4 => "May"
  | 5 => "June"
  | 6 => "July"
  | 7 => "August"
  | 8 => "September"
  | 9 => "October"
  | 10 => "November"
  | 11 => "December"
  | _ => ""

/-- The current instant as the server observes it: the epoch-millisecond
reading (used for lease comparisons) together with the calendar fields
`getFullYear()` and `getMonth()` read from the same `new Date()`. -/
structure NowTime where
  ms : Int
  year : Nat
  month0 : Nat
deriving DecidableEq

/-- Row of the `properties` table (shared/schema.ts), restricted to the
fields the embedded code reads.  `ccEmails` mirrors the service's
`property.ccEmails` access: the properties table has no such column, so at
runtime the value is `undefined` (`none` here); the access pattern
`property.ccEmails || []` is kept faithfully. -/
structure Property where
  id : Nat
  name : String
  address : String
  propertyType : String
  rentExcludingVat : Option String
  rentIncludingVat : Option String
  isVatExempt : Bool
  tenantName : Option String
  tenantPhone : Option String
  tenantEmail : Option String
  leaseStartDate : Option Int
  leaseEndDate : Option Int
  isOccupied : Bool
  ccEmails : Option (List String)
deriving DecidableEq

/-- Row of the `invoices` table (shared/schema.ts). -/
structure Invoice where
  id : Nat
  propertyId : Nat
  invoiceNumber : String
  amount : String
  invoiceDate : JsDate
  rentPeriodStart : JsDate
  rentPeriodEnd : JsDate
  dueDate : JsDate
  sentDate : Option Int
  ccEmails : List String
  status : String
  description : Option String
  isNew : Bool
deriving DecidableEq

/-- Insert payload accepted by `storage.createInvoice`; optional fields are
defaulted by the storage layer. -/
structure InsertInvoice where
  propertyId : Nat
  invoiceNumber : String
  amount : String
  invoiceDate : JsDate
  rentPeriodStart : JsDate
  rentPeriodEnd : JsDate
  dueDate : JsDate
  sentDate : Option Int := none
  ccEmails : Option (List String) := none
  status : Option String := none
  description : Option String := none
  isNew : Option Bool := none
deriving DecidableEq

/-- Singleton `company_settings` row, restricted to the fields the embedded
code reads (the identity/address fields appear only in PDF header text). -/
structure CompanySettings where
  vatRate : String
  notifyLeaseExpiry : Bool
  notifyInvoiceGeneration : Bool
  notificationEmail : String
deriving DecidableEq

/-- Row of the `notifications` table. -/
structure Notification where
  propertyId : Nat
  type : String
  message : String
  isRead : Bool
deriving DecidableEq

/-- The persistent state the embedded operations read and write: the
database tables plus the serial-id counter for invoices. -/
structure AppState where
  properties : List Property
  invoices : List Invoice
  notifications : List Notification
  settings : Option CompanySettings
  nextInvoiceId : Nat
deriving DecidableEq

/-- Row constructed by `storage.createInvoice` (DatabaseStorage) from the
insert payload: the defaults `ccEmails || []`, `status || "draft"`,
`isNew ?? true`, `sentDate || null` applied, and the next serial id
assigned. -/
def insertedInvoiceRow (s : AppState) (ins : InsertInvoice) : Invoice :=
  { id := s.nextInvoiceId
    propertyId := ins.propertyId
    invoiceNumber := ins.invoiceNumber
    amount := ins.amount
    invoiceDate := ins.invoiceDate
    rentPeriodStart := ins.rentPeriodStart
    rentPeriodEnd := ins.rentPeriodEnd
    dueDate := ins.dueDate
    sentDate := ins.sentDate
    ccEmails := ins.ccEmails.getD []
    status := jsOr ins.status "draft"
    description := ins.description
    isNew := ins.isNew.getD true }

/-- `storage.createInvoice` (DatabaseStorage): insert a row.  The invoices
table declares `invoice_number` UNIQUE (shared/schema.ts line 37), so an
insert whose number equals a stored invoice's number violates the
constraint and the database error is thrown to the caller; otherwise the
row is appended. -/
def createInvoice (s : AppState) (ins : InsertInvoice) :
    Except String (Invoice × AppState) :=
  if s.invoices.any (fun i => i.invoiceNumber == ins.invoiceNumber) then
    .error "duplicate key value violates unique constraint"
  else
    .ok (insertedInvoiceRow s ins,
      { s with invoices := s.invoices ++ [insertedInvoiceRow s ins],
               nextInvoiceId := s.nextInvoiceId + 1 })

/-- Occupancy filter of `generateMonthlyInvoices` (invoiceService.ts line
31): tenant name present and non-blank after trimming, both lease dates
present, and the lease end strictly in the future. -/
def occupiedFilter (now : NowTime) (p : Property) : Bool :=
  (match p.tenantName with
   | some t => jsTrim t != ""
   | none => false) &&
  p.leaseStartDate.isSome &&
  (match p.leaseEndDate with
   | some e => now.ms < e
   | none => false)

/-- Duplicate-prevention check of `createInvoiceForProperty` (invoiceService
lines 77-82): among the property's invoices, is there one whose
`invoiceDate` has the current month and year? -/
def monthInvoiceExists (s : AppState) (pid : Nat) (now : NowTime) : Bool :=
  (s.invoices.filter (fun i => i.propertyId == pid)).any
    (fun i => i.invoiceDate.month0 == now.month0 && i.invoiceDate.year == now.year)

/-- Measurement used in theorem statements: how many stored invoices belong
to property `pid` with an `invoiceDate` in 0-based month `m0` of year `y`.
This counts exactly the invoices the duplicate check would find. -/
def countMonthInvoices (s : AppState) (pid : Nat) (y : Nat) (m0 : Nat) : Nat :=
  (s.invoices.filter
    (fun i => i.propertyId == pid && i.invoiceDate.year == y && i.invoiceDate.month0 == m0)).length

/-- Scheduled invoice number (invoiceService line 89):
`INV-{year}{month+1 padded to 2}-{propertyId padded to 3}`; the same
expression is inlined again in `createManualInvoiceForProperty` as the base
of the manual number. -/
def scheduledInvoiceNumber (now : NowTime) (pid : Nat) : String :=
  "INV-" ++ toString now.year ++ padStart (toString (now.month0 + 1)) 2 '0' ++
    "-" ++ padStart (toString pid) 3 '0'

/-- The invoice fields the service builds for the current month.  The
construction is duplicated verbatim in the source (invoiceService lines
93-104, scheduled, and 206-217, manual); the only field that differs is the
invoice number, a parameter here. -/
def buildInvoicePayload (p : Property) (now : NowTime) (invoiceNumber : String) :
    InsertInvoice :=
  { propertyId := p.id
    invoiceNumber := invoiceNumber
    amount := jsOr p.rentIncludingVat (jsOr p.rentExcludingVat "0")
    invoiceDate := mkJsDate now.year now.month0 1
    dueDate := mkJsDate now.year now.month0 7
    status := some "draft"
    description := some ("Rental for " ++ p.propertyType ++ " - " ++
      monthLongName now.month0 ++ " " ++ toString now.year)
    ccEmails := some (p.ccEmails.getD [])
    rentPeriodStart := mkJsDate now.year now.month0 1
    rentPeriodEnd := mkJsDate now.year (now.month0 + 1) 0 }

/-- `InvoiceService.createInvoiceForProperty`: skip if an invoice already
exists for the property in the current month, otherwise build and insert the
draft invoice for the current month.  Returns the created invoice (`none`
when skipped) with the updated state; a storage error (the unique-number
constraint) propagates as a thrown error. -/
def createInvoiceForProperty (s : AppState) (p : Property) (now : NowTime) :
    Except String (Option Invoice × AppState) :=
  if monthInvoiceExists s p.id now then .ok (none, s)
  else
    match createInvoice s (buildInvoicePayload p now (scheduledInvoiceNumber now p.id)) with
    | .ok (inv, s1) => .ok (some inv, s1)
    | .error e => .error e

/-- The per-property loop of `InvoiceService.generateMonthlyInvoices`.  The
whole loop runs inside a single try/catch, so the first thrown storage
error aborts the remaining properties while rows committed before it
persist; the error, if any, is returned alongside the final state. -/
def goScheduled (s : AppState) (props : List Property) (now : NowTime) :
    AppState × Option String :=
  match props with
  | [] => (s, none)
  | p :: rest =>
    match createInvoiceForProperty s p now with
    | .ok (_, s1) => goScheduled s1 rest now
    | .error e => (s, some e)

/-- `InvoiceService.generateMonthlyInvoices`: filter to occupied properties
with a live lease, then create one current-month invoice per property unless
one already exists.  The surrounding catch only logs a thrown error, and the
single summary email goes to the operator over SMTP without touching any
table, so the observable result is the committed state. -/
def generateMonthlyInvoices (s : AppState) (now : NowTime) : AppState :=
  (goScheduled s (s.properties.filter (occupiedFilter now)) now).1

/-- `InvoiceService.createManualInvoiceForProperty`: same field construction
as the scheduled path, no duplicate-month check, and the invoice number
carries a suffix of the last four digits of `Date.now()` (`tsMs`).  The
insert sits in a try/catch that logs and rethrows a storage error (such as
the unique-number violation).  The invoice-generation notification sent on
success is an email to the operator, not a stored notification row. -/
def createManualInvoiceForProperty (s : AppState) (p : Property) (now : NowTime)
    (tsMs : Nat) : Except String AppState :=
  match createInvoice s (buildInvoicePayload p now
      (scheduledInvoiceNumber now p.id ++ "-" ++ jsSliceLast4 tsMs)) with
  | .ok (_, s1) => .ok s1
  | .error e => .error e

/-- `InvoiceService.manualGenerateInvoice`: look the property up and throw
`Error('Property not found')` when absent, otherwise create the manual
invoice (bypassing duplicate-month checks). -/
def manualGenerateInvoice (s : AppState) (propertyId : Nat) (now : NowTime)
    (tsMs : Nat) : Except String AppState :=
  match s.properties.find? (fun p => p.id == propertyId) with
  | none => .error "Property not found"
  | some property => createManualInvoiceForProperty s property now tsMs

/-- The rate-string selection `companySettings?.vatRate || '15.00'` that
both `pdfService.generateInvoicePDF` and the client's `getVatMultiplier`
apply before `parseFloat`. -/
def effectiveVatRateStr (o : Option CompanySettings) : String :=
  match o with
  | some c => if c.vatRate = "" then "15.00" else c.vatRate
  | none => "15.00"

/-- `getVatMultiplier` (add-property form): `1 + parseFloat(vatRate||'15.00')/100`. -/
def getVatMultiplier (o : Option CompanySettings) : Option ℚ :=
  jsAdd (some 1) (jsDiv (parseFloat (effectiveVatRateStr o)) (some 100))

/-- The amount section of the rendered invoice document: either the single
amount line of a VAT-exempt property or the three-line breakdown. -/
inductive PdfAmountSection where
  | exemptLine (amount : Option ℚ) : PdfAmountSection
  | vatBreakdown (rentExcludingVat vatAmount amountIncludingVat : Option ℚ)
      (vatRate : Option ℚ) : PdfAmountSection
deriving DecidableEq

/-- Amount block of `PDFService.generateInvoicePDF` (pdfService lines
85-112), the only part of the fixed-layout document the claims concern:
parse the stored amount, then either print it alone (exempt) or derive the
excluding-VAT and VAT lines from it with the current settings VAT rate. -/
def pdfAmountSection (invoice : Invoice) (property : Property)
    (settings : Option CompanySettings) : PdfAmountSection :=
  let invoiceAmount := parseFloat invoice.amount
  if property.isVatExempt then
    .exemptLine invoiceAmount
  else
    let vatRate := parseFloat (effectiveVatRateStr settings)
    let vatMultiplier := jsAdd (some 1) (jsDiv vatRate (some 100))
    let rentExcludingVat := jsDiv invoiceAmount vatMultiplier
    let vatAmount := jsSub invoiceAmount rentExcludingVat
    .vatBreakdown rentExcludingVat vatAmount invoiceAmount vatRate

/-- `NotificationService.sendLeaseExpiryNotification`, reduced to its
observable outcome: an email is dispatched exactly when the
`notifyLeaseExpiry` toggle is on (absent settings disable it); the email
transport is assumed available. -/
def sendLeaseExpiryNotificationFires (settings : Option CompanySettings) : Bool :=
  match settings with
  | some c => c.notifyLeaseExpiry
  | none => false

/-- Loop body of
`NotificationService.checkAndSendLeaseExpiryNotifications` for one property:
the (property, daysUntilExpiry) pair when an expiry email goes out today,
`none` otherwise. -/
def leaseExpiryCheckOne (settings : Option CompanySettings) (nowMs : Int)
    (property : Property) : Option (Property × Int) :=
  if property.isOccupied then
    match property.leaseEndDate with
    | some leaseEnd =>
      let daysUntilExpiry := jsCeilDays (leaseEnd - nowMs)
      if daysUntilExpiry = 30 ∨ daysUntilExpiry = 7 ∨ daysUntilExpiry = 1 then
        if sendLeaseExpiryNotificationFires settings then some (property, daysUntilExpiry)
        else none
      else none
    | none => none
  else none

/-- `NotificationService.checkAndSendLeaseExpiryNotifications`: the list of
(property, daysUntilExpiry) pairs for which a lease-expiry email is
dispatched by the daily run at instant `nowMs`. -/
def checkAndSendLeaseExpiryNotifications (s : AppState) (nowMs : Int) :
    List (Property × Int) :=
  s.properties.filterMap (leaseExpiryCheckOne s.settings nowMs)

/-- Field update applied by `POST /api/invoices/:id/send` on success via
`storage.updateInvoice`: only `ccEmails`, `status`, `sentDate` and `isNew`
change. -/
def applySentUpdate (id : Nat) (cc : List String) (nowMs : Int) (i : Invoice) : Invoice :=
  if i.id == id then { i with ccEmails := cc, status := "sent", sentDate := some nowMs, isNew := false }
  else i

/-- Route `POST /api/invoices/:id/send` (routes lines 396-447).  `emailOk`
is the boolean outcome of `emailService.sendInvoice` (the external dispatch
step).  Returns the HTTP status code and the resulting state: 404 for a
missing invoice or property, 400 when the tenant email is absent (or empty,
both falsy), 500 when dispatch fails, and on success the invoice update,
one `invoice_sent` notification row, and a 200 response. -/
def sendInvoiceRoute (s : AppState) (id : Nat) (ccEmails : List String)
    (emailOk : Bool) (nowMs : Int) : Nat × AppState :=
  match s.invoices.find? (fun i => i.id == id) with
  | none => (404, s)
  | some invoice =>
    match s.properties.find? (fun p => p.id == invoice.propertyId) with
    | none => (404, s)
    | some property =>
      match property.tenantEmail with
      | none => (400, s)
      | some tenantEmail =>
        if tenantEmail = "" then (400, s)
        else if !emailOk then (500, s)
        else
          let invoices1 := s.invoices.map (applySentUpdate id ccEmails nowMs)
          let notif : Notification :=
            { propertyId := property.id
              type := "invoice_sent"
              message := "Invoice " ++ invoice.invoiceNumber ++ " sent to " ++ tenantEmail
              isRead := false }
          (200, { s with invoices := invoices1, notifications := s.notifications ++ [notif] })

/-- Field update applied by `storage.updateInvoiceStatus`: `.set({ status })`
touches no other column. -/
def applyStatusUpdate (id : Nat) (st : String) (i : Invoice) : Invoice :=
  if i.id == id then { i with status := st } else i

/-- Route `PUT /api/invoices/:id/status` (routes lines 484-504): reject a
missing or unknown status with 400 before touching storage, then run
`storage.updateInvoiceStatus`; 404 when no invoice row matched. -/
def updateStatusRoute (s : AppState) (id : Nat) (status : Option String) : Nat × AppState :=
  match status with
  | none => (400, s)
  | some st =>
    if !(st = "draft" ∨ st = "sent" ∨ st = "paid" : Bool) then (400, s)
    else
      match s.invoices.find? (fun i => i.id == id) with
      | none => (404, s)
      | some _ => (200, { s with invoices := s.invoices.map (applyStatusUpdate id st) })

/-- Route `POST /api/properties/:id/invoice` (routes lines 253-267): call
`manualGenerateInvoice`; a thrown error (including the property-not-found
throw) lands in the catch-all and is reported as a 500. -/
def manualGenerateRoute (s : AppState) (id : Nat) (now : NowTime) (tsMs : Nat) :
    Nat × AppState :=
  match manualGenerateInvoice s id now tsMs with
  | .ok s1 => (200, s1)
  | .error _ => (500, s)

/-- Concrete occupied property used by witnesses. -/
def wProp : Property :=
  { id := 1
    name := "Unit A"
    address := "1 Main Rd"
    propertyType := "apartment"
    rentExcludingVat := some "1000.00"
    rentIncludingVat := some "1150.00"
    isVatExempt := false
    tenantName := some "Jane Tenant"
    tenantPhone := some "0800000000"
    tenantEmail := some "jane@example.com"
    leaseStartDate := some 0
    leaseEndDate := some 999999999999999
    isOccupied := true
    ccEmails := none }

/-- Concrete run instant: 1 January 2025. -/
def wNow : NowTime := { ms := 1735689600000, year := 2025, month0 := 0 }

/-- Concrete starting state with one occupied property and no invoices. -/
def wState : AppState :=
  { properties := [wProp]
    invoices := []
    notifications := []
    settings := none
    nextInvoiceId := 1 }

/-- Empty state used by the C8 discussion: no properties at all. -/
def c8State : AppState :=
  { properties := []
    invoices := []
    notifications := []
    settings := none
    nextInvoiceId := 1 }

/-- Concrete company settings with the standard 15% rate and notifications
enabled. -/
def wSettings : CompanySettings :=
  { vatRate := "15.00"
    notifyLeaseExpiry := true
    notifyInvoiceGeneration := true
    notificationEmail := "ops@example.com" }

/-- Concrete company settings whose stored VAT rate string has no numeric
prefix. -/
def c7BadSettings : CompanySettings :=
  { vatRate := "abc"
    notifyLeaseExpiry := true
    notifyInvoiceGeneration := true
    notificationEmail := "ops@example.com" }

/-- Concrete draft invoice for property 1. -/
def wDraftInvoice : Invoice :=
  { id := 1
    propertyId := 1
    invoiceNumber := "INV-202501-001"
    amount := "1150.00"
    invoiceDate := ⟨2025, 0, 1⟩
    rentPeriodStart := ⟨2025, 0, 1⟩
    rentPeriodEnd := ⟨2025, 0, 31⟩
    dueDate := ⟨2025, 0, 7⟩
    sentDate := none
    ccEmails := []
    status := "draft"
    description := none
    isNew := true }

/-- Concrete state for exercising the send route on a sendable invoice. -/
def wSendState : AppState :=
  { properties := [wProp]
    invoices := [wDraftInvoice]
    notifications := []
    settings := some wSettings
    nextInvoiceId := 2 }

/-- Property 2: occupied but with no tenant email on record. -/
def w3Prop : Property := { wProp with id := 2, tenantEmail := none }

/-- Draft invoice belonging to the email-less property 2. -/
def w3Invoice : Invoice := { wDraftInvoice with id := 3, propertyId := 2 }

/-- Concrete state for the missing-recipient send attempt. -/
def w3State : AppState :=
  { properties := [w3Prop]
    invoices := [w3Invoice]
    notifications := []
    settings := some wSettings
    nextInvoiceId := 4 }

/-- Occupied property whose lease ends exactly 7 days after epoch. -/
def w6Prop : Property := { wProp with leaseEndDate := some (7 * 86400000) }

/-- Concrete state for the lease-expiry notifier. -/
def w6State : AppState :=
  { properties := [w6Prop]
    invoices := []
    notifications := []
    settings := some wSettings
    nextInvoiceId := 1 }

/-- Concrete paid invoice, for the status-route witness. -/
def wPaidInvoice : Invoice := { wDraftInvoice with id := 9, status := "paid" }

/-- Concrete state for the status route. -/
def w10State : AppState :=
  { properties := [wProp]
    invoices := [wPaidInvoice]
    notifications := []
    settings := some wSettings
    nextInvoiceId := 10 }

-- ===== Theorems =====

/-- A `new Date(y, m0, d)` with an in-range month and a nonzero day is the
plain calendar date. -/
theorem mkJsDate_day (y m0 d : Nat) (hm : m0 < 12) (hd : d ≠ 0) :
    mkJsDate y m0 d = ⟨y, m0, d⟩ := by
  unfold mkJsDate
  simp [Nat.div_eq_of_lt hm, Nat.mod_eq_of_lt hm, hd]

/-- `new Date(y, m0 + 1, 0)` is the last day of month `m0` of year `y`. -/
theorem mkJsDate_monthEnd (y m0 : Nat) (hm : m0 < 12) :
    mkJsDate y (m0 + 1) 0 = ⟨y, m0, daysInMonth y m0⟩ := by
  unfold mkJsDate
  by_cases h11 : m0 = 11
  · subst h11
    norm_num
  · have hlt : m0 + 1 < 12 := by omega
    simp [Nat.div_eq_of_lt hlt, Nat.mod_eq_of_lt hlt]

/-- The duplicate check of `createInvoiceForProperty` finds an invoice
exactly when the month count for the property is positive. -/
theorem monthInvoiceExists_iff (s : AppState) (pid : Nat) (now : NowTime) :
    monthInvoiceExists s pid now = true ↔
      0 < countMonthInvoices s pid now.year now.month0 := by
  unfold monthInvoiceExists countMonthInvoices
  constructor
  · intro h
    obtain ⟨i, hi, hcond⟩ := List.any_eq_true.mp h
    obtain ⟨hmem, hpid⟩ := List.mem_filter.mp hi
    refine List.length_pos_of_mem (List.mem_filter.mpr ⟨hmem, ?_⟩)
    simp only [Bool.and_eq_true, beq_iff_eq] at hpid hcond ⊢
    exact ⟨⟨hpid, hcond.2⟩, hcond.1⟩
  · intro h
    obtain ⟨i, hi⟩ := List.exists_mem_of_length_pos h
    obtain ⟨hmem, hq⟩ := List.mem_filter.mp hi
    refine List.any_eq_true.mpr ⟨i, List.mem_filter.mpr ⟨hmem, ?_⟩, ?_⟩ <;>
      simp only [Bool.and_eq_true, beq_iff_eq] at hq ⊢
    · exact hq.1.1
    · exact ⟨hq.2, hq.1.2⟩

/-- Left-cancellation of string concatenation. -/
theorem string_append_left_cancel {a b c : String} (h : a ++ b = a ++ c) : b = c := by
  have hd := congrArg String.data h
  simp only [String.data_append] at hd
  exact String.ext (List.append_cancel_left hd)

/-- Running the digit fold from an accumulator scales the accumulator by the
weight of the remaining digits. -/
theorem digitsVal_foldl_acc (l : List Char) (acc : Nat) :
    l.foldl (fun a c => a * 10 + (c.toNat - '0'.toNat)) acc =
      acc * 10 ^ l.length + digitsVal l := by
  induction l generalizing acc with
  | nil => simp [digitsVal]
  | cons c t ih =>
    simp only [List.foldl_cons, List.length_cons, digitsVal]
    rw [ih (acc * 10 + (c.toNat - '0'.toNat)), ih (0 * 10 + (c.toNat - '0'.toNat))]
    ring

/-- Value of a digit list with its head split off. -/
theorem digitsVal_cons (c : Char) (t : List Char) :
    digitsVal (c :: t) = (c.toNat - '0'.toNat) * 10 ^ t.length + digitsVal t := by
  unfold digitsVal
  simp only [List.foldl_cons]
  rw [digitsVal_foldl_acc]
  simp [digitsVal]

/-- Value of a concatenation of digit blocks. -/
theorem digitsVal_append (l1 l2 : List Char) :
    digitsVal (l1 ++ l2) = digitsVal l1 * 10 ^ l2.length + digitsVal l2 := by
  unfold digitsVal
  rw [List.foldl_append, digitsVal_foldl_acc]
  rfl

/-- A run of zero characters contributes nothing. -/
theorem digitsVal_replicate_zero (k : Nat) : digitsVal (List.replicate k '0') = 0 := by
  induction k with
  | zero => rfl
  | succ n ih =>
    rw [List.replicate_succ, digitsVal_cons, ih]
    simp

/-- A single decimal digit round-trips through `Nat.digitChar`. -/
theorem digitChar_val (n : Nat) (h : n < 10) : (Nat.digitChar n).toNat - '0'.toNat = n := by
  interval_cases n <;> rfl

/-- The core digit printer produces the digits of its input (in base 10,
with enough fuel). -/
theorem digitsVal_toDigitsCore (fuel n : Nat) (ds : List Char) (h : n < fuel) :
    digitsVal (Nat.toDigitsCore 10 fuel n ds) = n * 10 ^ ds.length + digitsVal ds := by
  induction fuel generalizing n ds with
  | zero => omega
  | succ fuel ih =>
    show digitsVal
        (if n / 10 = 0 then Nat.digitChar (n % 10) :: ds
         else Nat.toDigitsCore 10 fuel (n / 10) (Nat.digitChar (n % 10) :: ds)) =
      n * 10 ^ ds.length + digitsVal ds
    by_cases h0 : n / 10 = 0
    · rw [if_pos h0, digitsVal_cons, digitChar_val _ (by omega)]
      have hn : n % 10 = n := by omega
      rw [hn]
    · rw [if_neg h0, ih _ _ (by omega), digitsVal_cons, digitChar_val _ (by omega),
        List.length_cons]
      conv_rhs => rw [← Nat.div_add_mod n 10]
      ring

/-- The decimal string of a natural number evaluates back to it. -/
theorem digitsVal_toString (n : Nat) : digitsVal (toString n).data = n := by
  rw [show (toString n).data = Nat.toDigitsCore 10 (n + 1) n [] from rfl]
  rw [digitsVal_toDigitsCore (n + 1) n [] (by omega)]
  simp [digitsVal]

/-- Zero-padding on the left does not change the numeric value. -/
theorem padStart_toString_val (n len : Nat) :
    digitsVal (padStart (toString n) len '0').data = n := by
  unfold padStart
  rw [String.data_append,
    show (String.mk (List.replicate (len - (toString n).length) '0')).data =
      List.replicate (len - (toString n).length) '0' from rfl,
    digitsVal_append, digitsVal_replicate_zero, digitsVal_toString]
  simp

/-- Two numbers with the same zero-padded decimal string are equal. -/
theorem padStart_toString_inj {a b : Nat} {len : Nat}
    (h : padStart (toString a) len '0' = padStart (toString b) len '0') : a = b := by
  have ha := padStart_toString_val a len
  rw [h, padStart_toString_val b len] at ha
  exact ha.symm

/-- Distinct property ids give distinct scheduled invoice numbers (the
month-and-year base is shared and the id block is zero-padded decimal). -/
theorem scheduledInvoiceNumber_inj (now : NowTime) {a b : Nat}
    (h : scheduledInvoiceNumber now a = scheduledInvoiceNumber now b) : a = b := by
  unfold scheduledInvoiceNumber at h
  exact padStart_toString_inj (string_append_left_cancel h)

/-- Appending a single invoice row bumps the month count exactly when the
row matches the property and month being counted. -/
theorem countMonth_append_single (s1 s : AppState) (inv : Invoice) (pid y m0 : Nat)
    (h : s1.invoices = s.invoices ++ [inv]) :
    countMonthInvoices s1 pid y m0 =
      countMonthInvoices s pid y m0 +
        (if inv.propertyId = pid ∧ inv.invoiceDate.year = y ∧ inv.invoiceDate.month0 = m0
         then 1 else 0) := by
  unfold countMonthInvoices
  rw [h, List.filter_append, List.length_append]
  by_cases hc : inv.propertyId = pid ∧ inv.invoiceDate.year = y ∧ inv.invoiceDate.month0 = m0
  · simp [List.filter, hc.1, hc.2.1, hc.2.2]
  · simp only [if_neg hc, Nat.add_right_cancel_iff]
    simp only [List.filter]
    have : ¬(inv.propertyId == pid && inv.invoiceDate.year == y && inv.invoiceDate.month0 == m0) = true := by
      simpa [Bool.and_eq_true, beq_iff_eq, and_assoc] using hc
    simp [this]

/-- A fresh invoice number passes the unique-constraint check of
`storage.createInvoice` and the row is appended. -/
theorem createInvoice_ok (s : AppState) (ins : InsertInvoice)
    (hfresh : ∀ i ∈ s.invoices, i.invoiceNumber ≠ ins.invoiceNumber) :
    createInvoice s ins = .ok (insertedInvoiceRow s ins,
      { s with invoices := s.invoices ++ [insertedInvoiceRow s ins],
               nextInvoiceId := s.nextInvoiceId + 1 }) := by
  have hany : (s.invoices.any (fun i => i.invoiceNumber == ins.invoiceNumber)) = false := by
    rw [← Bool.not_eq_true, List.any_eq_true]
    rintro ⟨i, hi, hb⟩
    exact hfresh i hi (by simpa using hb)
  unfold createInvoice
  rw [hany]
  simp

/-- A successful insert determines the created row and the new state. -/
theorem createInvoice_ok_inv (s : AppState) (ins : InsertInvoice) (inv : Invoice)
    (s1 : AppState) (h : createInvoice s ins = .ok (inv, s1)) :
    inv = insertedInvoiceRow s ins ∧
      s1 = { s with invoices := s.invoices ++ [insertedInvoiceRow s ins],
                    nextInvoiceId := s.nextInvoiceId + 1 } := by
  unfold createInvoice at h
  split at h
  · exact absurd h (by simp)
  · cases h
    exact ⟨rfl, rfl⟩

/-- A scheduled step for a property that already has a current-month invoice
is a skip. -/
theorem cip_skip (s : AppState) (q : Property) (now : NowTime)
    (hex : monthInvoiceExists s q.id now = true) :
    createInvoiceForProperty s q now = .ok (none, s) := by
  simp [createInvoiceForProperty, hex]

/-- A scheduled step with no current-month invoice and a fresh scheduled
number inserts exactly the scheduled row for the current month. -/
theorem cip_creates (s : AppState) (q : Property) (now : NowTime)
    (hlt : now.month0 < 12)
    (hex : monthInvoiceExists s q.id now = false)
    (hfresh : ∀ i ∈ s.invoices, i.invoiceNumber ≠ scheduledInvoiceNumber now q.id) :
    ∃ inv s1,
      createInvoiceForProperty s q now = .ok (some inv, s1) ∧
      s1.invoices = s.invoices ++ [inv] ∧
      s1.properties = s.properties ∧
      inv.invoiceNumber = scheduledInvoiceNumber now q.id ∧
      inv.propertyId = q.id ∧
      inv.invoiceDate = ⟨now.year, now.month0, 1⟩ ∧
      inv.rentPeriodStart = ⟨now.year, now.month0, 1⟩ ∧
      inv.dueDate = ⟨now.year, now.month0, 7⟩ ∧
      inv.rentPeriodEnd = ⟨now.year, now.month0, daysInMonth now.year now.month0⟩ ∧
      inv.status = "draft" ∧
      inv.ccEmails = q.ccEmails.getD [] ∧
      inv.amount = jsOr q.rentIncludingVat (jsOr q.rentExcludingVat "0") := by
  have hok := createInvoice_ok s
    (buildInvoicePayload q now (scheduledInvoiceNumber now q.id)) hfresh
  refine ⟨insertedInvoiceRow s (buildInvoicePayload q now (scheduledInvoiceNumber now q.id)),
    { s with
      invoices := s.invoices ++
        [insertedInvoiceRow s (buildInvoicePayload q now (scheduledInvoiceNumber now q.id))],
      nextInvoiceId := s.nextInvoiceId + 1 },
    ?_, rfl, rfl, rfl, rfl, ?_, ?_, ?_, ?_, ?_, rfl, rfl⟩
  · simp only [createInvoiceForProperty, hex, Bool.false_eq_true, if_false, hok]
  · exact mkJsDate_day now.year now.month0 1 hlt one_ne_zero
  · exact mkJsDate_day now.year now.month0 1 hlt one_ne_zero
  · exact mkJsDate_day now.year now.month0 7 hlt (by norm_num)
  · exact mkJsDate_monthEnd now.year now.month0 hlt
  · simp [insertedInvoiceRow, buildInvoicePayload, jsOr]

/-- Once the month already holds an invoice for `pid`, a scheduled step for
any property that does not throw leaves the month count of `pid`
unchanged. -/
theorem cip_ok_countMonth_of_pos (s : AppState) (q : Property) (now : NowTime)
    (pid y m0 : Nat) (o : Option Invoice) (s1 : AppState)
    (hy : now.year = y) (hm0 : now.month0 = m0)
    (hpos : 0 < countMonthInvoices s pid y m0)
    (h : createInvoiceForProperty s q now = .ok (o, s1)) :
    countMonthInvoices s1 pid y m0 = countMonthInvoices s pid y m0 := by
  by_cases hex : monthInvoiceExists s q.id now = true
  · rw [cip_skip s q now hex] at h
    cases h
    rfl
  · have hexf : monthInvoiceExists s q.id now = false := by
      cases hmx : monthInvoiceExists s q.id now
      · rfl
      · exact absurd hmx hex
    have hqne : q.id ≠ pid := by
      intro he
      apply hex
      rw [he, monthInvoiceExists_iff, hy, hm0]
      exact hpos
    unfold createInvoiceForProperty at h
    simp only [hexf, Bool.false_eq_true, if_false] at h
    split at h
    · rename_i inv1 s1x heq
      cases h
      obtain ⟨hrow, hstate⟩ := createInvoice_ok_inv _ _ _ _ heq
      rw [hstate, countMonth_append_single _ s _ pid y m0 rfl, if_neg, Nat.add_zero]
      intro hcon
      exact hqne hcon.1
    · exact absurd h (by simp)

/-- Folding the scheduled loop over any property list preserves a positive
month count of `pid` unchanged (a thrown step aborts the batch with the
committed state). -/
theorem goScheduled_countMonth_of_pos (props : List Property) (s : AppState)
    (now : NowTime) (pid y m0 : Nat) (hy : now.year = y) (hm0 : now.month0 = m0)
    (hpos : 0 < countMonthInvoices s pid y m0) :
    countMonthInvoices (goScheduled s props now).1 pid y m0 =
      countMonthInvoices s pid y m0 := by
  induction props generalizing s with
  | nil => rfl
  | cons q rest ih =>
    rw [goScheduled]
    cases hc : createInvoiceForProperty s q now with
    | ok pr =>
      obtain ⟨o, s1⟩ := pr
      have hstep := cip_ok_countMonth_of_pos s q now pid y m0 o s1 hy hm0 hpos hc
      exact (ih s1 (by rw [hstep]; exact hpos)).trans hstep
    | error e => rfl

/-- Folding the scheduled loop over a property list that mentions `pid`,
starting from a month with no invoice for `pid` and a state whose stored
invoice numbers respect the program's numbering scheme (a current-month
scheduled number only on a row of that property dated in that month), ends
with exactly one invoice for `pid` in the month. -/
theorem goScheduled_countMonth_create (props : List Property) (s : AppState)
    (now : NowTime) (pid y m0 : Nat) (hy : now.year = y) (hm0 : now.month0 = m0)
    (hlt : m0 < 12) (h0 : countMonthInvoices s pid y m0 = 0)
    (hmem : ∃ q ∈ props, q.id = pid)
    (hsafe : ∀ q ∈ props, ∀ i ∈ s.invoices,
      i.invoiceNumber = scheduledInvoiceNumber now q.id →
      i.propertyId = q.id ∧ i.invoiceDate.year = y ∧ i.invoiceDate.month0 = m0) :
    countMonthInvoices (goScheduled s props now).1 pid y m0 = 1 := by
  induction props generalizing s with
  | nil => simp at hmem
  | cons q rest ih =>
    rw [goScheduled]
    by_cases hex : monthInvoiceExists s q.id now = true
    · rw [cip_skip s q now hex]
      have hqne : q.id ≠ pid := by
        intro he
        rw [he, monthInvoiceExists_iff, hy, hm0, h0] at hex
        omega
      have hmem2 : ∃ q2 ∈ rest, q2.id = pid := by
        obtain ⟨q2, hq2, hid2⟩ := hmem
        rcases List.mem_cons.mp hq2 with hh | hh
        · exact absurd (hh ▸ hid2) hqne
        · exact ⟨q2, hh, hid2⟩
      exact ih s h0 hmem2 (fun q2 hq2 => hsafe q2 (List.mem_cons_of_mem q hq2))
    · have hexf : monthInvoiceExists s q.id now = false := by
        cases hmx : monthInvoiceExists s q.id now
        · rfl
        · exact absurd hmx hex
      have hfresh : ∀ i ∈ s.invoices, i.invoiceNumber ≠ scheduledInvoiceNumber now q.id := by
        intro i hi hnum
        obtain ⟨hpid2, hyear, hmonth⟩ := hsafe q (List.mem_cons_self q rest) i hi hnum
        apply hex
        unfold monthInvoiceExists
        refine List.any_eq_true.mpr ⟨i, List.mem_filter.mpr ⟨hi, ?_⟩, ?_⟩
        · simpa using hpid2
        · simp only [Bool.and_eq_true, beq_iff_eq]
          exact ⟨hmonth.trans hm0.symm, hyear.trans hy.symm⟩
      obtain ⟨inv, s1, hstep, hinvs, _, hnum, hpid2, hdate, _, _, _, _, _, _⟩ :=
        cip_creates s q now (by omega) hexf hfresh
      rw [hstep]
      by_cases hq : q.id = pid
      · have h1 : countMonthInvoices s1 pid y m0 = 1 := by
          rw [countMonth_append_single s1 s inv pid y m0 hinvs, h0, if_pos]
          exact ⟨hpid2.trans hq, by rw [hdate]; exact hy, by rw [hdate]; exact hm0⟩
        exact (goScheduled_countMonth_of_pos rest s1 now pid y m0 hy hm0
          (by rw [h1]; omega)).trans h1
      · have h00 : countMonthInvoices s1 pid y m0 = 0 := by
          rw [countMonth_append_single s1 s inv pid y m0 hinvs, h0, if_neg, Nat.add_zero]
          intro hcon
          exact hq (hpid2.symm.trans hcon.1)
        have hmem2 : ∃ q2 ∈ rest, q2.id = pid := by
          obtain ⟨q2, hq2, hid2⟩ := hmem
          rcases List.mem_cons.mp hq2 with hh | hh
          · exact absurd (hh ▸ hid2) hq
          · exact ⟨q2, hh, hid2⟩
        have hsafe2 : ∀ q2 ∈ rest, ∀ i ∈ s1.invoices,
            i.invoiceNumber = scheduledInvoiceNumber now q2.id →
            i.propertyId = q2.id ∧ i.invoiceDate.year = y ∧ i.invoiceDate.month0 = m0 := by
          intro q2 hq2 i hi hnum2
          rw [hinvs] at hi
          rcases List.mem_append.mp hi with hh | hh
          · exact hsafe q2 (List.mem_cons_of_mem q hq2) i hh hnum2
          · have hieq : i = inv := by simpa using hh
            subst hieq
            have hq12 : q.id = q2.id := scheduledInvoiceNumber_inj now (hnum.symm.trans hnum2)
            exact ⟨hpid2.trans hq12, by rw [hdate]; exact hy, by rw [hdate]; exact hm0⟩
        exact ih s1 h00 hmem2 hsafe2

/-- Helper evaluation fact: parsing the default rate string. -/
theorem parseFloat_default15 : parseFloat "15.00" = some 15 := by
  rw [show parseFloat "15.00" = some (ratOfParts false 15 0 2) from rfl]
  norm_num [ratOfParts]

/-- Helper evaluation fact: parsing the example invoice amount. -/
theorem parseFloat_1150 : parseFloat "1150.00" = some 1150 := by
  rw [show parseFloat "1150.00" = some (ratOfParts false 1150 0 2) from rfl]
  norm_num [ratOfParts]

example : jsSliceLast4 1700000012345 = "2345" := by decide
example : jsSliceLast4 1700000010045 = "0045" := by decide
example : parseFloat "abc" = none := by rfl
example : padStart (toString 7) 3 '0' = "007" := by decide
example : jsCeilDays (7 * 86400000) = 7 := by decide
example : jsCeilDays 1 = 1 := by decide
example : jsCeilDays 0 = 0 := by decide
example : mkJsDate 2025 12 0 = ⟨2025, 11, 31⟩ := by decide
example : mkJsDate 2025 1 0 = ⟨2025, 0, 31⟩ := by decide

/-- C1: For every property, running scheduled invoice generation twice in
the same calendar month creates exactly one invoice for that property in
that month: a run that finds any existing invoice for the property whose
`invoiceDate` falls in the same (month, year) skips creation, so the
scheduled path is idempotent per month.  (Stated for a property passing the
generator's occupancy filter, starting from a state with no invoice for it
in the month whose stored invoice numbers respect the program's numbering
scheme — `hnum`: a current-month scheduled number only occurs on a row of
that property dated in that month, as creation guarantees — so the
unique-number constraint of the invoices table cannot abort the batch.) -/
theorem scheduled_generation_idempotent_per_month
    (s : AppState) (p : Property) (now now2 : NowTime)
    (hm : now.month0 < 12)
    (hmem : p ∈ s.properties) (hocc : occupiedFilter now p = true)
    (h0 : countMonthInvoices s p.id now.year now.month0 = 0)
    (hnum : ∀ q ∈ s.properties, ∀ i ∈ s.invoices,
      i.invoiceNumber = scheduledInvoiceNumber now q.id →
      i.propertyId = q.id ∧ i.invoiceDate.year = now.year ∧
        i.invoiceDate.month0 = now.month0)
    (hy : now2.year = now.year) (hm2 : now2.month0 = now.month0) :
    countMonthInvoices (generateMonthlyInvoices (generateMonthlyInvoices s now) now2)
      p.id now.year now.month0 = 1 := by
  have hrun1 : countMonthInvoices (generateMonthlyInvoices s now) p.id now.year now.month0 = 1 := by
    unfold generateMonthlyInvoices
    refine goScheduled_countMonth_create _ s now p.id now.year now.month0 rfl rfl hm h0
      ⟨p, List.mem_filter.mpr ⟨hmem, hocc⟩, rfl⟩ ?_
    intro q hq i hi hn
    exact hnum q (List.mem_filter.mp hq).1 i hi hn
  unfold generateMonthlyInvoices at hrun1 ⊢
  rw [goScheduled_countMonth_of_pos _ _ now2 p.id now.year now.month0 hy hm2
    (by rw [hrun1]; omega), hrun1]

/-- Witness for C1 at a concrete occupied property and month. -/
theorem scheduled_generation_idempotent_witness :
    occupiedFilter wNow wProp = true ∧
    countMonthInvoices wState 1 2025 0 = 0 ∧
    countMonthInvoices (generateMonthlyInvoices (generateMonthlyInvoices wState wNow) wNow)
      1 2025 0 = 1 :=
  ⟨by decide, by decide,
    scheduled_generation_idempotent_per_month wState wProp wNow wNow (by decide)
      (by decide) (by decide) (by decide) (by decide) rfl rfl⟩

/-- C4: Every invoice built by the scheduled generator for the current month
has `invoiceDate = rentPeriodStart` = first day of the month, `dueDate` =
the 7th, `rentPeriodEnd` = the last day of the month, status `draft`,
`ccEmails` = the property's stored CC list or empty, amount equal to the
property's inclusive rent — which, under the data invariant, equals the
exclusive rent when the property is VAT-exempt — and invoice number
`INV-{year}{month:02}-{propertyId:03}`.  (`hfresh` states the schema's
uniqueness precondition: no stored invoice already bears this month's
scheduled number for the property, which creation guarantees.) -/
theorem scheduled_invoice_fields
    (s : AppState) (p : Property) (now : NowTime) (incRent : String)
    (hm : now.month0 < 12)
    (h0 : countMonthInvoices s p.id now.year now.month0 = 0)
    (hfresh : ∀ i ∈ s.invoices, i.invoiceNumber ≠ scheduledInvoiceNumber now p.id)
    (hinc : p.rentIncludingVat = some incRent) (hne : incRent ≠ "")
    (hexempt : p.isVatExempt = true → p.rentExcludingVat = p.rentIncludingVat) :
    ∃ (inv : Invoice) (s1 : AppState),
      createInvoiceForProperty s p now = .ok (some inv, s1) ∧
      inv.invoiceDate = ⟨now.year, now.month0, 1⟩ ∧
      inv.rentPeriodStart = ⟨now.year, now.month0, 1⟩ ∧
      inv.dueDate = ⟨now.year, now.month0, 7⟩ ∧
      inv.rentPeriodEnd = ⟨now.year, now.month0, daysInMonth now.year now.month0⟩ ∧
      inv.status = "draft" ∧
      inv.ccEmails = p.ccEmails.getD [] ∧
      inv.amount = incRent ∧
      (p.isVatExempt = true → p.rentExcludingVat = some inv.amount) ∧
      inv.invoiceNumber = "INV-" ++ toString now.year ++
        padStart (toString (now.month0 + 1)) 2 '0' ++ "-" ++ padStart (toString p.id) 3 '0' := by
  have hex : monthInvoiceExists s p.id now = false := by
    rw [← Bool.not_eq_true, monthInvoiceExists_iff, h0]
    omega
  obtain ⟨inv, s1, hstep, _, _, hnum, _, hdate, hrps, hdue, hrpe, hstatus, hcc, hamount⟩ :=
    cip_creates s p now hm hex hfresh
  refine ⟨inv, s1, hstep, hdate, hrps, hdue, hrpe, hstatus, hcc, ?_, ?_, hnum⟩
  · rw [hamount, hinc]
    simp [jsOr, hne]
  · intro hx
    rw [hamount, hinc]
    simp only [jsOr, hne, if_neg]
    rw [hexempt hx, hinc]
    simp [hne]

/-- Witness for C4 at the concrete occupied property: January 2025, property
id 1, inclusive rent "1150.00". -/
theorem scheduled_invoice_fields_witness :
    countMonthInvoices wState 1 2025 0 = 0 ∧
    (∃ (inv : Invoice) (s1 : AppState),
      createInvoiceForProperty wState wProp wNow = .ok (some inv, s1) ∧
      inv.invoiceDate = ⟨2025, 0, 1⟩ ∧
      inv.rentPeriodStart = ⟨2025, 0, 1⟩ ∧
      inv.dueDate = ⟨2025, 0, 7⟩ ∧
      inv.rentPeriodEnd = ⟨2025, 0, 31⟩ ∧
      inv.status = "draft" ∧
      inv.ccEmails = [] ∧
      inv.amount = "1150.00" ∧
      (wProp.isVatExempt = true → wProp.rentExcludingVat = some inv.amount) ∧
      inv.invoiceNumber = "INV-202501-001") :=
  ⟨by decide,
    scheduled_invoice_fields wState wProp wNow "1150.00" (by decide) (by decide)
      (by decide) rfl (by decide) (by decide)⟩

/-- A found property and a fresh manual invoice number make the manual
generation succeed, appending exactly the manual row. -/
theorem manualGenerate_creates (s : AppState) (pid : Nat) (p : Property) (now : NowTime)
    (tsMs : Nat)
    (hfind : s.properties.find? (fun q => q.id == pid) = some p)
    (hfresh : ∀ i ∈ s.invoices,
      i.invoiceNumber ≠ scheduledInvoiceNumber now p.id ++ "-" ++ jsSliceLast4 tsMs) :
    ∃ s1 inv,
      manualGenerateInvoice s pid now tsMs = .ok s1 ∧
      s1.invoices = s.invoices ++ [inv] ∧
      s1.properties = s.properties ∧
      inv.invoiceNumber = scheduledInvoiceNumber now p.id ++ "-" ++ jsSliceLast4 tsMs := by
  have hok := createInvoice_ok s
    (buildInvoicePayload p now (scheduledInvoiceNumber now p.id ++ "-" ++ jsSliceLast4 tsMs))
    hfresh
  have hmain : manualGenerateInvoice s pid now tsMs = .ok
      { s with
        invoices := s.invoices ++ [insertedInvoiceRow s (buildInvoicePayload p now
          (scheduledInvoiceNumber now p.id ++ "-" ++ jsSliceLast4 tsMs))],
        nextInvoiceId := s.nextInvoiceId + 1 } := by
    unfold manualGenerateInvoice
    rw [hfind]
    show (match createInvoice s (buildInvoicePayload p now
        (scheduledInvoiceNumber now p.id ++ "-" ++ jsSliceLast4 tsMs)) with
      | .ok (_, s1) => Except.ok s1
      | .error e => Except.error e) = _
    rw [hok]
  exact ⟨_, _, hmain, rfl, rfl, rfl⟩

/-- C5 counterexample: two manual generations for property 1 at the
January-2025 millisecond timestamps 1735689612345 and 1735689622345 (ten
seconds apart, so their last four digits coincide).  The first creates the
invoice `INV-202501-001-2345`; the second insert violates the unique
invoice-number constraint and throws, the route reports HTTP 500, and only
one invoice is persisted — the claimed two distinctly numbered invoices do
not exist. -/
theorem manual_generation_distinct_counterexample :
    (manualGenerateInvoice wState 1 wNow 1735689612345).map
        (fun s1 => s1.invoices.map (fun i => i.invoiceNumber)) =
      .ok ["INV-202501-001-2345"] ∧
    ((manualGenerateInvoice wState 1 wNow 1735689612345).bind
        (fun s1 => manualGenerateInvoice s1 1 wNow 1735689622345)) =
      .error "duplicate key value violates unique constraint" ∧
    (manualGenerateInvoice wState 1 wNow 1735689612345).map
        (fun s1 => ((manualGenerateRoute s1 1 wNow 1735689622345).1,
          (manualGenerateRoute s1 1 wNow 1735689622345).2.invoices.length)) =
      .ok (500, 1) :=
  ⟨by rfl, by rfl, by rfl⟩

/-- C5 (amended): manual generation bypasses the duplicate-month check —
both runs attempt creation whatever invoices already exist for the month —
each invoice numbered `INV-{YYYY}{MM}-{PPP}-{TTTT}` with `TTTT` the last
four digits of the millisecond timestamp.  Two runs whose timestamps differ
in their last four digits (and whose numbers are not already taken, `hfresh`)
create two invoices with distinct numbers; at coinciding suffixes the
second insert instead fails on the unique-number constraint with only the
first invoice persisted (see the counterexample). -/
theorem manual_generation_bypasses_duplicate_check
    (s : AppState) (pid : Nat) (p : Property) (now : NowTime) (t1 t2 : Nat)
    (hfind : s.properties.find? (fun q => q.id == pid) = some p)
    (hsuff : jsSliceLast4 t1 ≠ jsSliceLast4 t2)
    (hfresh1 : ∀ i ∈ s.invoices,
      i.invoiceNumber ≠ scheduledInvoiceNumber now p.id ++ "-" ++ jsSliceLast4 t1)
    (hfresh2 : ∀ i ∈ s.invoices,
      i.invoiceNumber ≠ scheduledInvoiceNumber now p.id ++ "-" ++ jsSliceLast4 t2) :
    ∃ s1 s2 : AppState,
      manualGenerateInvoice s pid now t1 = .ok s1 ∧
      manualGenerateInvoice s1 pid now t2 = .ok s2 ∧
      s2.invoices.map (fun i => i.invoiceNumber) =
        s.invoices.map (fun i => i.invoiceNumber) ++
          [scheduledInvoiceNumber now p.id ++ "-" ++ jsSliceLast4 t1,
           scheduledInvoiceNumber now p.id ++ "-" ++ jsSliceLast4 t2] ∧
      scheduledInvoiceNumber now p.id ++ "-" ++ jsSliceLast4 t1 ≠
        scheduledInvoiceNumber now p.id ++ "-" ++ jsSliceLast4 t2 := by
  have hdistinct : scheduledInvoiceNumber now p.id ++ "-" ++ jsSliceLast4 t1 ≠
      scheduledInvoiceNumber now p.id ++ "-" ++ jsSliceLast4 t2 := by
    intro hcontra
    exact hsuff (string_append_left_cancel hcontra)
  obtain ⟨s1, i1, h1, hinv1, hprops1, hnum1⟩ :=
    manualGenerate_creates s pid p now t1 hfind hfresh1
  have hfind1 : s1.properties.find? (fun q => q.id == pid) = some p := by
    rw [hprops1]
    exact hfind
  have hfresh2x : ∀ i ∈ s1.invoices,
      i.invoiceNumber ≠ scheduledInvoiceNumber now p.id ++ "-" ++ jsSliceLast4 t2 := by
    intro i hi
    rw [hinv1] at hi
    rcases List.mem_append.mp hi with hh | hh
    · exact hfresh2 i hh
    · have hieq : i = i1 := by simpa using hh
      subst hieq
      rw [hnum1]
      exact hdistinct
  obtain ⟨s2, i2, h2, hinv2, _, hnum2⟩ :=
    manualGenerate_creates s1 pid p now t2 hfind1 hfresh2x
  refine ⟨s1, s2, h1, h2, ?_, hdistinct⟩
  rw [hinv2, hinv1, List.map_append, List.map_append]
  simp [hnum1, hnum2]

/-- Witness for the amended C5: property 1, January 2025, timestamps with
suffixes 2345 and 6789; the run starts from a state that already holds the
scheduled January invoice, showing the duplicate-month check is bypassed. -/
theorem manual_generation_bypass_witness :
    (∃ s1 s2 : AppState,
      manualGenerateInvoice (generateMonthlyInvoices wState wNow) 1 wNow 1735689612345 = .ok s1 ∧
      manualGenerateInvoice s1 1 wNow 1735689656789 = .ok s2 ∧
      s2.invoices.map (fun i => i.invoiceNumber) =
        (generateMonthlyInvoices wState wNow).invoices.map (fun i => i.invoiceNumber) ++
          [scheduledInvoiceNumber wNow 1 ++ "-" ++ jsSliceLast4 1735689612345,
           scheduledInvoiceNumber wNow 1 ++ "-" ++ jsSliceLast4 1735689656789] ∧
      scheduledInvoiceNumber wNow 1 ++ "-" ++ jsSliceLast4 1735689612345 ≠
        scheduledInvoiceNumber wNow 1 ++ "-" ++ jsSliceLast4 1735689656789) :=
  manual_generation_bypasses_duplicate_check (generateMonthlyInvoices wState wNow) 1 wProp
    wNow 1735689612345 1735689656789 (by decide) (by decide) (by decide) (by decide)

/-- C8 counterexample: a manual invoice generation for a nonexistent
property id is surfaced by `POST /api/properties/:id/invoice` as HTTP 500
(the route's catch-all), not as the 404 the claim states. -/
theorem manual_route_not_found_counterexample :
    (manualGenerateRoute c8State 5 wNow 1234).1 = 500 ∧
    (manualGenerateRoute c8State 5 wNow 1234).1 ≠ 404 ∧
    (manualGenerateRoute c8State 5 wNow 1234).2 = c8State := by decide

/-- C8 (amended): a manual invoice-generation attempt for a nonexistent
property fails in the service with the error `Property not found`, which the
HTTP boundary reports as a 500 (the route catch-all swallows the not-found
signal), and no invoice is created — the state is untouched. -/
theorem manual_generation_not_found
    (s : AppState) (pid : Nat) (now : NowTime) (tsMs : Nat)
    (hnone : s.properties.find? (fun p => p.id == pid) = none) :
    manualGenerateInvoice s pid now tsMs = .error "Property not found" ∧
    manualGenerateRoute s pid now tsMs = (500, s) := by
  unfold manualGenerateRoute manualGenerateInvoice
  rw [hnone]
  exact ⟨rfl, rfl⟩

/-- Witness for the amended C8 on the empty state. -/
theorem manual_generation_not_found_witness :
    c8State.properties.find? (fun p => p.id == 5) = none ∧
    manualGenerateInvoice c8State 5 wNow 1234 = .error "Property not found" ∧
    manualGenerateRoute c8State 5 wNow 1234 = (500, c8State) := by
  refine ⟨rfl, ?_⟩
  have h := manual_generation_not_found c8State 5 wNow 1234 rfl
  exact h

/-- C2: if the email-dispatch step of the send operation fails, the whole
operation aborts with a 500 and no change to any state (no invoice field,
no notification); if dispatch succeeds, the operation persists the provided
`ccEmails`, sets status to `sent`, `sentDate` to the current time, `isNew`
to false — touching no other invoice field — and appends exactly one
`invoice_sent` notification. -/
theorem send_route_dispatch_atomicity
    (s : AppState) (id : Nat) (cc : List String) (nowMs : Int)
    (inv : Invoice) (p : Property) (tenantEmail : String)
    (hinv : s.invoices.find? (fun i => i.id == id) = some inv)
    (hp : s.properties.find? (fun q => q.id == inv.propertyId) = some p)
    (hte : p.tenantEmail = some tenantEmail) (hne : tenantEmail ≠ "") :
    sendInvoiceRoute s id cc false nowMs = (500, s) ∧
    sendInvoiceRoute s id cc true nowMs =
      (200, { s with
        invoices := s.invoices.map (fun i =>
          if i.id == id
          then { i with ccEmails := cc, status := "sent", sentDate := some nowMs, isNew := false }
          else i)
        notifications := s.notifications ++
          [{ propertyId := p.id
             type := "invoice_sent"
             message := "Invoice " ++ inv.invoiceNumber ++ " sent to " ++ tenantEmail
             isRead := false }] }) := by
  constructor
  · simp [sendInvoiceRoute, hinv, hp, hte, hne]
  · simp [sendInvoiceRoute, hinv, hp, hte, hne, applySentUpdate]

/-- Witness for C2: the concrete draft invoice, on failed and successful
dispatch. -/
theorem send_route_dispatch_witness :
    wSendState.invoices.find? (fun i => i.id == 1) = some wDraftInvoice ∧
    wProp.tenantEmail = some "jane@example.com" ∧
    sendInvoiceRoute wSendState 1 ["cc@example.com"] false 1000 = (500, wSendState) ∧
    sendInvoiceRoute wSendState 1 ["cc@example.com"] true 1000 =
      (200, { wSendState with
        invoices := [{ wDraftInvoice with ccEmails := ["cc@example.com"], status := "sent", sentDate := some 1000, isNew := false }]
        notifications :=
          [{ propertyId := 1
             type := "invoice_sent"
             message := "Invoice INV-202501-001 sent to jane@example.com"
             isRead := false }] }) := by
  have h := send_route_dispatch_atomicity wSendState 1 ["cc@example.com"] 1000 wDraftInvoice
    wProp "jane@example.com" (by decide) (by decide) rfl (by decide)
  refine ⟨by decide, rfl, h.1, ?_⟩
  rw [h.2]
  decide

/-- C3: sending an invoice whose property has no tenant email fails with
HTTP 400 (`Tenant email not found`) and leaves the state — in particular the
invoice, still found unchanged under its id — exactly as it was. -/
theorem send_route_missing_recipient
    (s : AppState) (id : Nat) (cc : List String) (emailOk : Bool) (nowMs : Int)
    (inv : Invoice) (p : Property)
    (hinv : s.invoices.find? (fun i => i.id == id) = some inv)
    (hp : s.properties.find? (fun q => q.id == inv.propertyId) = some p)
    (hte : p.tenantEmail = none) :
    sendInvoiceRoute s id cc emailOk nowMs = (400, s) ∧
    (sendInvoiceRoute s id cc emailOk nowMs).2.invoices.find? (fun i => i.id == id) =
      some inv := by
  have h : sendInvoiceRoute s id cc emailOk nowMs = (400, s) := by
    simp [sendInvoiceRoute, hinv, hp, hte]
  refine ⟨h, ?_⟩
  rw [h]
  exact hinv

/-- Witness for C3: the concrete email-less property and its draft invoice;
the invoice stays in status `draft`. -/
theorem send_route_missing_recipient_witness :
    w3Prop.tenantEmail = none ∧
    w3Invoice.status = "draft" ∧
    sendInvoiceRoute w3State 3 [] true 1000 = (400, w3State) ∧
    (sendInvoiceRoute w3State 3 [] true 1000).2.invoices.find? (fun i => i.id == 3) =
      some w3Invoice := by
  have h := send_route_missing_recipient w3State 3 [] true 1000 w3Invoice w3Prop
    (by decide) (by decide) rfl
  exact ⟨rfl, rfl, h.1, h.2⟩

/-- C10: the status-update route accepts any of `draft`, `sent`, `paid`
regardless of the invoice's current status, and rewrites only the `status`
field of the matching invoice, leaving every other field and every other
table untouched; any other payload is rejected with 400 and no state
change. -/
theorem update_status_route_spec
    (s : AppState) (id : Nat) (inv : Invoice)
    (hinv : s.invoices.find? (fun i => i.id == id) = some inv) :
    (∀ st : String, (st = "draft" ∨ st = "sent" ∨ st = "paid") →
      updateStatusRoute s id (some st) =
        (200, { s with invoices :=
          s.invoices.map (fun i => if i.id == id then { i with status := st } else i) })) ∧
    (∀ st : String, ¬(st = "draft" ∨ st = "sent" ∨ st = "paid") →
      updateStatusRoute s id (some st) = (400, s)) ∧
    updateStatusRoute s id none = (400, s) := by
  refine ⟨?_, ?_, rfl⟩
  · intro st hst
    simp [updateStatusRoute, hst, hinv, applyStatusUpdate]
  · intro st hst
    simp [updateStatusRoute, hst]

/-- Witness for C10: moving the concrete `paid` invoice back to `draft`
succeeds and touches only its status; the unknown status `cancelled` is
rejected with no state change. -/
theorem update_status_route_witness :
    w10State.invoices.find? (fun i => i.id == 9) = some wPaidInvoice ∧
    wPaidInvoice.status = "paid" ∧
    updateStatusRoute w10State 9 (some "draft") =
      (200, { w10State with invoices := [{ wPaidInvoice with status := "draft" }] }) ∧
    updateStatusRoute w10State 9 (some "cancelled") = (400, w10State) := by
  have h := update_status_route_spec w10State 9 wPaidInvoice (by decide)
  refine ⟨by decide, rfl, ?_, h.2.1 "cancelled" (by decide)⟩
  rw [h.1 "draft" (Or.inl rfl)]
  decide

/-- The notifier loop body only ever reports the property it examined. -/
theorem leaseExpiryCheckOne_fst (settings : Option CompanySettings) (nowMs : Int)
    (a : Property) (x : Property × Int)
    (h : leaseExpiryCheckOne settings nowMs a = some x) : x.1 = a := by
  simp only [leaseExpiryCheckOne] at h
  repeat' split at h
  all_goals cases h
  all_goals rfl

/-- C6: for every occupied property with a lease end date, the daily
notifier computes `daysRemaining = ceil((leaseEnd - now) / 1 day)` and
dispatches a lease-expiry notification exactly when that value is 30, 7 or
1 and the `notifyLeaseExpiry` setting is enabled; it fires at no other
value. -/
theorem lease_expiry_fires_iff
    (s : AppState) (nowMs : Int) (p : Property) (e : Int) (c : CompanySettings) (d : Int)
    (hmem : p ∈ s.properties) (hocc : p.isOccupied = true)
    (hend : p.leaseEndDate = some e) (hset : s.settings = some c) :
    (p, d) ∈ checkAndSendLeaseExpiryNotifications s nowMs ↔
      (d = jsCeilDays (e - nowMs) ∧ (d = 30 ∨ d = 7 ∨ d = 1) ∧
        c.notifyLeaseExpiry = true) := by
  unfold checkAndSendLeaseExpiryNotifications
  rw [List.mem_filterMap]
  constructor
  · rintro ⟨a, _, hfa⟩
    have hpa : a = p := (leaseExpiryCheckOne_fst _ _ _ _ hfa).symm.trans rfl
    subst hpa
    unfold leaseExpiryCheckOne at hfa
    rw [hocc, hend, hset] at hfa
    simp only [if_true, sendLeaseExpiryNotificationFires] at hfa
    split at hfa
    · split at hfa
      · have hx := Option.some.inj hfa
        have hd : d = jsCeilDays (e - nowMs) := congrArg Prod.snd hx.symm
        refine ⟨hd, by rw [hd]; assumption, by assumption⟩
      · exact absurd hfa (by simp)
    · exact absurd hfa (by simp)
  · rintro ⟨hd, hcond, hnotify⟩
    refine ⟨p, hmem, ?_⟩
    unfold leaseExpiryCheckOne
    rw [hocc, hend, hset]
    subst hd
    simp [sendLeaseExpiryNotificationFires, hcond, hnotify]

/-- Witness for C6: lease ending exactly 7 days from `now` fires; moving
`now` one day later (6 days remaining) or one day earlier (8 days
remaining) silences the notifier entirely. -/
theorem lease_expiry_fires_witness :
    jsCeilDays (7 * 86400000 - 0) = 7 ∧
    ((w6Prop, 7) ∈ checkAndSendLeaseExpiryNotifications w6State 0) ∧
    checkAndSendLeaseExpiryNotifications w6State 86400000 = [] ∧
    checkAndSendLeaseExpiryNotifications w6State (-86400000) = [] :=
  ⟨by decide,
    (lease_expiry_fires_iff w6State 0 w6Prop (7 * 86400000) wSettings 7 (by decide) rfl rfl
      rfl).mpr ⟨by decide, by decide, rfl⟩,
    by decide, by decide⟩

/-- C7 counterexample: company settings whose VAT-rate string `"abc"` has no
numeric prefix do not fall back to the 15% default — `parseFloat` yields NaN
and the multiplier `1 + rate/100` is NaN too, so this VAT computation does
not proceed with a numeric rate. -/
theorem vat_rate_unparseable_counterexample :
    effectiveVatRateStr (some c7BadSettings) = "abc" ∧
    parseFloat (effectiveVatRateStr (some c7BadSettings)) = none ∧
    getVatMultiplier (some c7BadSettings) = none :=
  ⟨rfl, rfl, rfl⟩

/-- C7 (amended): whenever the VAT rate is read from company settings, a
missing settings row or an empty rate string falls back to the fixed
default of 15% (multiplier 1.15); a non-empty rate string that `parseFloat`
cannot read yields NaN, not the default. -/
theorem vat_rate_missing_defaults_to_15 (o : Option CompanySettings)
    (h : o = none ∨ ∃ c, o = some c ∧ c.vatRate = "") :
    parseFloat (effectiveVatRateStr o) = some 15 ∧
    getVatMultiplier o = some (23 / 20) := by
  have hstr : effectiveVatRateStr o = "15.00" := by
    rcases h with h | ⟨c, hc, hrate⟩
    · subst h
      rfl
    · subst hc
      simp [effectiveVatRateStr, hrate]
  constructor
  · rw [hstr, parseFloat_default15]
  · unfold getVatMultiplier
    rw [hstr, parseFloat_default15]
    simp only [jsDiv, jsAdd]
    norm_num

/-- Witness for the amended C7: absent settings give the 15% default. -/
theorem vat_rate_missing_witness :
    parseFloat (effectiveVatRateStr none) = some 15 ∧
    getVatMultiplier none = some (23 / 20) :=
  vat_rate_missing_defaults_to_15 none (Or.inl rfl)

/-- C9: the rendered invoice document branches on the property's VAT
exemption: a VAT-exempt property shows a single amount line equal to the
invoice's stored amount; a non-exempt property shows three lines where
excluding-VAT = storedAmount / (1 + currentRate/100), VAT amount =
storedAmount - excluding-VAT, and including-VAT = storedAmount, with
`currentRate` read from the company settings passed in at render time. -/
theorem pdf_amount_section_spec
    (inv : Invoice) (p : Property) (o : Option CompanySettings) (a r : ℚ)
    (ha : parseFloat inv.amount = some a)
    (hr : parseFloat (effectiveVatRateStr o) = some r)
    (hmul : 1 + r / 100 ≠ 0) :
    (p.isVatExempt = true → pdfAmountSection inv p o = .exemptLine (some a)) ∧
    (p.isVatExempt = false → pdfAmountSection inv p o =
      .vatBreakdown (some (a / (1 + r / 100))) (some (a - a / (1 + r / 100)))
        (some a) (some r)) := by
  constructor
  · intro hx
    simp [pdfAmountSection, hx, ha]
  · intro hx
    have hjs : jsDiv (some r) (some 100) = some (r / 100) := by
      show (if (100 : ℚ) = 0 then none else some (r / 100)) = some (r / 100)
      rw [if_neg (by norm_num : ¬(100 : ℚ) = 0)]
    have h100 : jsAdd (some 1) (jsDiv (some r) (some 100)) = some (1 + r / 100) := by
      rw [hjs]
      rfl
    have hdiv : jsDiv (some a) (some (1 + r / 100)) = some (a / (1 + r / 100)) := by
      show (if 1 + r / 100 = 0 then none else some (a / (1 + r / 100))) =
        some (a / (1 + r / 100))
      rw [if_neg hmul]
    have hsub : jsSub (some a) (some (a / (1 + r / 100))) =
        some (a - a / (1 + r / 100)) := rfl
    simp only [pdfAmountSection, hx, ha, hr, Bool.false_eq_true, if_false, h100, hdiv, hsub]

/-- Witness for C9: the worked spec example — stored amount 1150.00 at the
current 15% rate breaks down into 1000 excluding VAT, 150 VAT, 1150 total. -/
theorem pdf_amount_section_witness :
    parseFloat wDraftInvoice.amount = some 1150 ∧
    wProp.isVatExempt = false ∧
    pdfAmountSection wDraftInvoice wProp (some wSettings) =
      .vatBreakdown (some 1000) (some 150) (some 1150) (some 15) := by
  have h := (pdf_amount_section_spec wDraftInvoice wProp (some wSettings) 1150 15
    parseFloat_1150 parseFloat_default15 (by norm_num)).2 rfl
  refine ⟨parseFloat_1150, rfl, ?_⟩
  rw [h]
  norm_num
